import Mathlib

/-!
Verification of the voodoo codegen struct extractor (`codegen/src/main.rs`).

The extractor consumes a stream of XML parse events and reconstructs the
struct-category entities of the registry document.  The definitions below are
a shallow embedding of the Rust source: panics (`panic!`, `assert!`,
`.expect`) become `Except.error`, the mutable loop state becomes an explicit
`LoopState` record threaded through a step function, and the driving `for`
loop becomes `runLoop`.  The input is ASCII (the registry is a machine
generated ASCII artifact), so Rust's byte counts coincide with character
counts and `char::is_numeric` coincides with `Char.isDigit` on every
character the scanner accepts.
-/

namespace Voodoo

/-- An XML attribute as the reader hands it to the extractor: local name and
value (`OwnedAttribute` restricted to the fields the source reads). -/
structure Attr where
  name : String
  value : String
  deriving DecidableEq, Repr

/-- `convert_type` from `codegen/src/main.rs`: the fixed table mapping raw C
type tokens to target names.  Outside the table, `split_at(4)` panics when
the token is shorter than four bytes; otherwise tokens are accepted only
under the `PFN_` or `Vk` prefix conventions. -/
def convert_type (orig_type : String) : Except String String :=
  if orig_type = "float" then .ok "f32"
  else if orig_type = "int32_t" then .ok "i32"
  else if orig_type = "uint32_t" then .ok "u32"
  else if orig_type = "char" then .ok "i8"
  else if orig_type = "uint8_t" then .ok "u8"
  else if orig_type = "void" then .ok "()"
  else if orig_type.length < 4 then .error ("byte index out of bounds: " ++ orig_type)
  else if orig_type.data.take 4 = "PFN_".data then .ok orig_type
  else if orig_type.data.take 2 = "Vk".data then .ok orig_type
  else .error ("unknown type: " ++ orig_type)

/-- `TypeCategory` from the source. -/
inductive TypeCategory where
  | none
  | struct
  | union
  | enum
  | other
  deriving DecidableEq, Repr

/-- `category` from the source: classify the value of a `category` attribute. -/
def category (s : String) : TypeCategory :=
  if s = "struct" then .struct
  else if s = "union" then .union
  else if s = "enum" then .enum
  else .other

/-- `Member` from the source: one field of a struct entity. -/
structure Member where
  ty : String
  name : String
  is_ptr : Bool
  is_const : Bool
  is_struct : Bool
  optional : Bool
  noautovalidity : Bool
  externsync : Bool
  array_size : Option String
  comment : Option String
  values : Option String
  len : Option String
  altlen : Option String
  deriving DecidableEq, Repr

/-- The literal initializer at the top of `Member::new`. -/
def memberInit : Member :=
  { ty := "", name := "", is_ptr := false, is_const := false, is_struct := false,
    optional := false, noautovalidity := false, externsync := false,
    array_size := none, comment := none, values := none, len := none, altlen := none }

/-- The `panic!("unknown struct attribute: {:?}={:?}", ...)` message (the
`Debug` formatting of the two strings, without escaping, which is exact on
the ASCII input). -/
def unknownAttrMsg (a : Attr) : String :=
  "unknown struct attribute: \"" ++ a.name ++ "\"=\"" ++ a.value ++ "\""

/-- The attribute loop of `Member::new`: fold the attribute list over the
member record, panicking on the first unrecognized attribute name. -/
def Member.applyAttrs : Member → List Attr → Except String Member
  | m, [] => .ok m
  | m, a :: rest =>
    if a.name = "values" then Member.applyAttrs { m with values := some a.value } rest
    else if a.name = "optional" then
      Member.applyAttrs { m with optional := m.optional || (a.value == "true") } rest
    else if a.name = "len" then Member.applyAttrs { m with len := some a.value } rest
    else if a.name = "noautovalidity" then
      Member.applyAttrs { m with noautovalidity := m.noautovalidity || (a.value == "true") } rest
    else if a.name = "altlen" then Member.applyAttrs { m with altlen := some a.value } rest
    else if a.name = "externsync" then
      Member.applyAttrs { m with externsync := m.externsync || (a.value == "true") } rest
    else .error (unknownAttrMsg a)

/-- `Member::new` from the source. -/
def Member.new (attribs : List Attr) : Except String Member :=
  Member.applyAttrs memberInit attribs

/-- `Member::validate` from the source: `assert!(self.name.len() > 0)`. -/
def Member.validate (m : Member) : Except String Unit :=
  if 0 < m.name.length then .ok () else .error "assertion failed: self.name.len() > 0"

/-- `Struct` from the source. -/
structure Struct where
  name : String
  returnedonly : Bool
  structextends : Option String
  comment : String
  members : List Member
  deriving DecidableEq, Repr

/-- The four local accumulators of `Struct::new` before the final record is
assembled. -/
structure StructAcc where
  name : Option String
  returnedonly : Bool
  structextends : Option String
  comment : String
  deriving DecidableEq, Repr

/-- The attribute loop of `Struct::new`, panicking on the first unrecognized
attribute name (`category` is recognized and ignored). -/
def Struct.applyAttrs : StructAcc → List Attr → Except String StructAcc
  | acc, [] => .ok acc
  | acc, a :: rest =>
    if a.name = "category" then Struct.applyAttrs acc rest
    else if a.name = "name" then Struct.applyAttrs { acc with name := some a.value } rest
    else if a.name = "returnedonly" then
      Struct.applyAttrs { acc with returnedonly := acc.returnedonly || (a.value == "true") } rest
    else if a.name = "structextends" then
      Struct.applyAttrs { acc with structextends := some a.value } rest
    else if a.name = "comment" then Struct.applyAttrs { acc with comment := a.value } rest
    else .error (unknownAttrMsg a)

/-- `Struct::new` from the source: apply the attributes, then demand a
`name` attribute was seen (`.expect("no struct name found")`). -/
def Struct.new (attribs : List Attr) : Except String Struct :=
  match Struct.applyAttrs
      { name := none, returnedonly := false, structextends := none, comment := "" } attribs with
  | .error e => .error e
  | .ok acc =>
    match acc.name with
    | some n =>
      .ok { name := n, returnedonly := acc.returnedonly, structextends := acc.structextends,
            comment := acc.comment, members := [] }
    | none => .error "no struct name found"

/-- Rust's `char::is_numeric`, on the ASCII fragment where it coincides with
`Char.isDigit` (the registry input is ASCII). -/
def rustIsNumeric (c : Char) : Bool := c.isDigit

/-- Rust's `str::starts_with`, as a character-list prefix test (byte and
character prefixes coincide on ASCII input). -/
def rustStartsWith (s p : String) : Bool := p.data.isPrefixOf s.data

/-- The character loop in the bracketed-digit branch of `parse_stray_text`:
`'['` is skipped, `']'` asserts it stands last, any other character asserts
it is numeric and is pushed onto the accumulated literal. -/
def scanChars (sLen : Nat) : Nat → String → List Char → Except String String
  | _, acc, [] => .ok acc
  | i, acc, c :: cs =>
    if c = '[' then scanChars sLen (i + 1) acc cs
    else if c = ']' then
      if i = sLen - 1 then scanChars sLen (i + 1) acc cs
      else .error "assertion failed: char_idx == s.len() - 1"
    else if rustIsNumeric c then scanChars sLen (i + 1) (acc.push c) cs
    else .error ("unexpected character found while parsing array size: " ++ c.toString)

/-- The whole bracketed-digit scan of `parse_stray_text`: run `scanChars`
over the fragment from index 0 with an empty accumulator. -/
def scanArraySize (s : String) : Except String String :=
  scanChars s.length 0 "" s.data

/-- `parse_stray_text` from the source.  Note that in the bracketed-digit
branch the scanned literal is dropped and the member returned unchanged,
exactly as in the source (`array_size` is never assigned there). -/
def parse_stray_text (s : String) (current_member : Member) : Except String Member :=
  if s = "[" then .ok current_member
  else if s = "]" then .ok current_member
  else if s = "[2]" then .ok { current_member with array_size := some "2" }
  else if s = "[4]" then .ok { current_member with array_size := some "4" }
  else if rustStartsWith s "const" then .ok { current_member with is_const := true }
  else if rustStartsWith s "struct" then .ok { current_member with is_struct := true }
  else if rustStartsWith s "*" then .ok { current_member with is_ptr := true }
  else if rustStartsWith s "[" then
    match scanArraySize s with
    | .ok _ => .ok current_member
    | .error e => .error e
  else .error ("unknown characters present: " ++ s)

/-- The events of the `xml::reader` stream that the driving loop inspects:
`other` stands for every variant matched by the catch-all arm (whitespace,
CData, comments, document markers), `sourceError` for `Err(e)`. -/
inductive XmlEvent where
  | startElement (name : String) (attributes : List Attr)
  | endElement (name : String)
  | characters (s : String)
  | sourceError (msg : String)
  | other
  deriving DecidableEq, Repr

/-- The mutable locals of `main`'s driving loop, as one record. -/
structure LoopState where
  structs : List Struct
  current_struct : Option Struct
  struct_start_depth : Int
  parsing_struct_comment : Bool
  current_member : Option Member
  member_start_depth : Int
  parsing_member_type : Bool
  parsing_member_name : Bool
  parsing_member_array_size : Bool
  parsing_member_comment : Bool
  depth : Int
  deriving DecidableEq, Repr

/-- The initial values of `main`'s locals. -/
def initState : LoopState :=
  { structs := [], current_struct := none, struct_start_depth := 0,
    parsing_struct_comment := false, current_member := none, member_start_depth := 0,
    parsing_member_type := false, parsing_member_name := false,
    parsing_member_array_size := false, parsing_member_comment := false, depth := 0 }

/-- The `type_category` computation at the top of the start-element arm: only
elements named `type` are inspected, and the last `category` attribute wins. -/
def typeCategoryOf (name : String) (attributes : List Attr) : TypeCategory :=
  if name = "type" then
    attributes.foldl (fun tc a => if a.name = "category" then category a.value else tc)
      TypeCategory.none
  else TypeCategory.none

/-- The tag dispatch inside `if let Some(ref mut st) = current_struct` in the
start-element arm. -/
def dispatchTag (st : LoopState) (name : String) (attributes : List Attr) :
    Except String LoopState :=
  if name = "member" then
    if st.current_member.isSome then .error "assertion failed: current_member.is_none()"
    else
      match Member.new attributes with
      | .ok m => .ok { st with current_member := some m, member_start_depth := st.depth }
      | .error e => .error e
  else if name = "type" then .ok { st with parsing_member_type := true }
  else if name = "name" then .ok { st with parsing_member_name := true }
  else if name = "enum" then .ok { st with parsing_member_array_size := true }
  else if name = "comment" then
    if st.current_member.isSome then .ok { st with parsing_member_comment := true }
    else .ok { st with parsing_struct_comment := true }
  else .error ("unknown tag: \"" ++ name ++ "\"")

/-- The whole start-element arm of the driving loop: detect a struct-category
element (which replaces `current_struct` and records the start depth), then —
with `current_struct` as it stands after that — dispatch on the tag name, and
finally increment the depth. -/
def stepStart (st : LoopState) (name : String) (attributes : List Attr) :
    Except String LoopState :=
  let afterOpen : Except String LoopState :=
    if typeCategoryOf name attributes = TypeCategory.struct then
      match Struct.new attributes with
      | .ok s => .ok { st with current_struct := some s, struct_start_depth := st.depth }
      | .error e => .error e
    else .ok st
  match afterOpen with
  | .error e => .error e
  | .ok st1 =>
    match (if st1.current_struct.isSome then dispatchTag st1 name attributes else .ok st1) with
    | .error e => .error e
    | .ok st2 => .ok { st2 with depth := st2.depth + 1 }

/-- The end-element arm of the driving loop: decrement the depth, then close
the member accumulator on a `member` end at the recorded member start depth
(validating the member), or seal the struct on a `type` end at the recorded
struct start depth. -/
def stepEnd (st0 : LoopState) (name : String) : Except String LoopState :=
  let st : LoopState := { st0 with depth := st0.depth - 1 }
  if name = "member" ∧ st.current_struct.isSome then
    if st.depth = st.member_start_depth then
      match st.current_struct, st.current_member with
      | some cs, some nm =>
        match Member.validate nm with
        | .ok _ =>
          .ok { st with current_struct := some { cs with members := cs.members ++ [nm] },
                        current_member := none }
        | .error e => .error e
      | none, _ => .error "no current struct"
      | _, none => .error "no current member"
    else .ok st
  else if name = "type" ∧ st.current_struct.isSome then
    if st.depth = st.struct_start_depth then
      match st.current_struct with
      | some cs => .ok { st with structs := st.structs ++ [cs], current_struct := none }
      | none => .ok st
    else .ok st
  else .ok st

/-- The characters arm of the driving loop: while a member is open a
non-empty text is consumed by the armed sub-element flag (type, name, array
size, comment, checked in that order) or else routed to `parse_stray_text`;
with no member open, a non-empty text fills the struct comment exactly when
that flag is armed. -/
def stepChars (st : LoopState) (s : String) : Except String LoopState :=
  match st.current_member with
  | some cur_mem =>
    if 0 < s.length then
      if st.parsing_member_type then
        .ok { st with current_member := some { cur_mem with ty := s },
                      parsing_member_type := false }
      else if st.parsing_member_name then
        .ok { st with current_member := some { cur_mem with name := s },
                      parsing_member_name := false }
      else if st.parsing_member_array_size then
        .ok { st with current_member := some { cur_mem with array_size := some s },
                      parsing_member_array_size := false }
      else if st.parsing_member_comment then
        .ok { st with current_member := some { cur_mem with comment := some s },
                      parsing_member_comment := false }
      else
        match parse_stray_text s cur_mem with
        | .ok m => .ok { st with current_member := some m }
        | .error e => .error e
    else .ok st
  | none =>
    match st.current_struct with
    | some cur_struct =>
      if st.parsing_struct_comment ∧ 0 < s.length then
        .ok { st with current_struct := some { cur_struct with comment := s },
                      parsing_struct_comment := false }
      else .ok st
    | none => .ok st

/-- What a full run produces: the collected structs on normal exhaustion, the
structs collected so far plus the reported message when the source errors
(the loop `break`s and still prints the structs), or a process abort. -/
inductive RunResult where
  | ok (structs : List Struct)
  | sourceError (structs : List Struct) (msg : String)
  | panic (msg : String)
  deriving DecidableEq, Repr

/-- The driving `for` loop of `main` over the remaining events. -/
def runLoop : LoopState → List XmlEvent → RunResult
  | st, [] => .ok st.structs
  | st, XmlEvent.sourceError msg :: _ => .sourceError st.structs msg
  | st, XmlEvent.other :: rest => runLoop st rest
  | st, XmlEvent.startElement n a :: rest =>
    match stepStart st n a with
    | .ok st' => runLoop st' rest
    | .error e => .panic e
  | st, XmlEvent.endElement n :: rest =>
    match stepEnd st n with
    | .ok st' => runLoop st' rest
    | .error e => .panic e
  | st, XmlEvent.characters s :: rest =>
    match stepChars st s with
    | .ok st' => runLoop st' rest
    | .error e => .panic e

/-- A full run of `main` over an event stream. -/
def run (events : List XmlEvent) : RunResult := runLoop initState events

/-- Whether an `Except` is a success. -/
def exOk {α : Type} : Except String α → Bool
  | .ok _ => true
  | .error _ => false

/-- The characters the bracketed-digit scan accepts without aborting. -/
def isScanChar (c : Char) : Bool := c = '[' || c = ']' || rustIsNumeric c

/-- The attribute names `Member::new` recognizes. -/
def isMemberAttrName (n : String) : Bool :=
  n == "values" || n == "optional" || n == "len" || n == "noautovalidity" ||
  n == "altlen" || n == "externsync"

/-- The attribute names `Struct::new` recognizes. -/
def isStructAttrName (n : String) : Bool :=
  n == "category" || n == "name" || n == "returnedonly" || n == "structextends" ||
  n == "comment"

/-- The value of the last attribute named `n` in the list, continuing from a
prior value `o` (the attribute loops overwrite string-valued fields, so the
last occurrence wins). -/
def lastAttrFrom (n : String) (o : Option String) : List Attr → Option String
  | [] => o
  | a :: rest => lastAttrFrom n (if a.name = n then some a.value else o) rest

/-- The value of the last attribute named `n` in the list, if any. -/
def lastAttr (n : String) (l : List Attr) : Option String := lastAttrFrom n none l

/-- A member element of a well-formed registry document: its attributes, the
text of its `type` sub-element, and the text of its `name` sub-element. -/
structure MemberDesc where
  attrs : List Attr
  ty : String
  fname : String
  deriving DecidableEq, Repr

/-- A struct-category element of a well-formed registry document: its
attributes, an optional nested comment element's text, and its member
elements in document order. -/
structure StructDesc where
  attrs : List Attr
  commentText : Option String
  members : List MemberDesc
  deriving DecidableEq, Repr

/-- The event stream of one member element. -/
def memberEvents (m : MemberDesc) : List XmlEvent :=
  [.startElement "member" m.attrs,
   .startElement "type" [], .characters m.ty, .endElement "type",
   .startElement "name" [], .characters m.fname, .endElement "name",
   .endElement "member"]

/-- The event streams of a list of member elements, concatenated. -/
def membersEvents : List MemberDesc → List XmlEvent
  | [] => []
  | m :: ms => memberEvents m ++ membersEvents ms

/-- The event stream of an optional nested comment element. -/
def commentEvents : Option String → List XmlEvent
  | Option.none => []
  | some c => [.startElement "comment" [], .characters c, .endElement "comment"]

/-- The event stream of one struct-category element. -/
def structEvents (d : StructDesc) : List XmlEvent :=
  XmlEvent.startElement "type" d.attrs ::
    (commentEvents d.commentText ++ membersEvents d.members ++ [XmlEvent.endElement "type"])

/-- The event stream of a well-formed document: its struct-category elements
in document order. -/
def docEvents : List StructDesc → List XmlEvent
  | [] => []
  | d :: ds => structEvents d ++ docEvents ds

/-- The Member record a well-formed member element is expected to produce:
its attributes applied by the Attribute Validator, its type and name texts
stored. -/
def mkMember (m : MemberDesc) : Member :=
  match Member.new m.attrs with
  | .ok m0 => { m0 with ty := m.ty, name := m.fname }
  | .error _ => memberInit

/-- The Struct record a well-formed struct-category element is expected to
produce: its attributes applied by the Attribute Validator, the nested
comment text overriding the comment attribute, and its members in document
order. -/
def mkStruct (d : StructDesc) : Struct :=
  match Struct.new d.attrs with
  | .ok s0 =>
    { s0 with
      comment := (match d.commentText with | some c => c | Option.none => s0.comment),
      members := d.members.map mkMember }
  | .error _ =>
    { name := "", returnedonly := false, structextends := none, comment := "", members := [] }

/-- Well-formedness of a member element: recognized attributes only, and
non-empty type and name texts. -/
def wfMemberDesc (m : MemberDesc) : Bool :=
  exOk (Member.new m.attrs) && decide (0 < m.ty.length) && decide (0 < m.fname.length)

/-- Well-formedness of a struct-category element: it is detected as
struct-category, its attributes are recognized and include a name, and its
comment text (when present) is non-empty, with well-formed members. -/
def wfStructDesc (d : StructDesc) : Bool :=
  decide (typeCategoryOf "type" d.attrs = TypeCategory.struct) &&
  exOk (Struct.new d.attrs) &&
  (match d.commentText with | some c => decide (0 < c.length) | Option.none => true) &&
  d.members.all wfMemberDesc

/-- The loop state after one whole struct-category element has been consumed
from a clean state `st`. -/
def structAdvance (st : LoopState) (d : StructDesc) : LoopState :=
  { st with structs := st.structs ++ [mkStruct d],
            current_struct := none, current_member := none,
            parsing_struct_comment := false,
            parsing_member_type := if d.members.isEmpty then true else false,
            struct_start_depth := st.depth,
            member_start_depth := if d.members.isEmpty then st.member_start_depth
                                  else st.depth + 1 }

/-- The spec's test scenario: one struct-category element `ExampleInfo` with
a member of type `int32_t` named `count`, and a second member with stray
tokens `const`, `*`, type `char`, name `label`. -/
def exampleEvents : List XmlEvent :=
  [.startElement "type" [⟨"category", "struct"⟩, ⟨"name", "ExampleInfo"⟩],
   .startElement "member" [],
   .startElement "type" [], .characters "int32_t", .endElement "type",
   .startElement "name" [], .characters "count", .endElement "name",
   .endElement "member",
   .startElement "member" [],
   .characters "const", .characters "*",
   .startElement "type" [], .characters "char", .endElement "type",
   .startElement "name" [], .characters "label", .endElement "name",
   .endElement "member",
   .endElement "type"]

/-- What the extractor actually produces on `exampleEvents`: the raw type
tokens are stored, not their normalized forms. -/
def exampleStruct : Struct :=
  { name := "ExampleInfo", returnedonly := false, structextends := none, comment := "",
    members :=
      [{ memberInit with ty := "int32_t", name := "count" },
       { memberInit with ty := "char", name := "label", is_ptr := true, is_const := true }] }

/-- A struct whose first member carries the stray tokens `const`, `*` as its
very first content: the struct's own opening tag has armed the member-type
flag, so the `const` fragment is consumed as the member's type text. -/
def c3Events : List XmlEvent :=
  [.startElement "type" [⟨"category", "struct"⟩, ⟨"name", "S"⟩],
   .startElement "member" [],
   .characters "const", .characters "*",
   .startElement "type" [], .characters "int32_t", .endElement "type",
   .startElement "name" [], .characters "x", .endElement "name",
   .endElement "member",
   .endElement "type"]

/-- What the extractor produces on `c3Events`: `is_const` is false because
the `const` fragment went into the (later overwritten) type field. -/
def c3Struct : Struct :=
  { name := "S", returnedonly := false, structextends := none, comment := "",
    members := [{ memberInit with ty := "int32_t", name := "x", is_ptr := true }] }

/-- A concrete member used by witnesses. -/
def witnessMember : Member := { memberInit with name := "count", ty := "uint32_t" }

/-- A concrete struct used by witnesses. -/
def witnessStruct : Struct :=
  { name := "W", returnedonly := false, structextends := none, comment := "", members := [] }

/-- A concrete loop state with a struct and a member open, used by witnesses. -/
def witnessState : LoopState :=
  { initState with current_struct := some witnessStruct, current_member := some witnessMember,
                   struct_start_depth := 0, member_start_depth := 1, depth := 2 }

/-- Like `witnessState`, but the open member still has an empty name. -/
def witnessStateNoName : LoopState :=
  { witnessState with current_member := some memberInit }

/-- Like `witnessState`, but with the member-type flag armed. -/
def witnessStateArmed : LoopState := { witnessState with parsing_member_type := true }

/-- A concrete well-formed struct-category element used by witnesses. -/
def witnessDesc : StructDesc :=
  { attrs := [⟨"category", "struct"⟩, ⟨"name", "VkThing"⟩, ⟨"returnedonly", "true"⟩],
    commentText := some "doc",
    members := [{ attrs := [⟨"optional", "true"⟩], ty := "uint32_t", fname := "count" }] }

/-- A second concrete well-formed struct-category element used by witnesses. -/
def witnessDesc2 : StructDesc :=
  { attrs := [⟨"category", "struct"⟩, ⟨"name", "VkOther"⟩],
    commentText := none,
    members := [] }

theorem runLoop_start_ok {st st' : LoopState} {n : String} {a : List Attr}
    {es : List XmlEvent} (h : stepStart st n a = .ok st') :
    runLoop st (XmlEvent.startElement n a :: es) = runLoop st' es := by
  simp [runLoop, h]

theorem runLoop_end_ok {st st' : LoopState} {n : String} {es : List XmlEvent}
    (h : stepEnd st n = .ok st') :
    runLoop st (XmlEvent.endElement n :: es) = runLoop st' es := by
  simp [runLoop, h]

theorem runLoop_chars_ok {st st' : LoopState} {s : String} {es : List XmlEvent}
    (h : stepChars st s = .ok st') :
    runLoop st (XmlEvent.characters s :: es) = runLoop st' es := by
  simp [runLoop, h]

theorem stepStart_member {st : LoopState} {cs : Struct} {m0 : Member} {attrs : List Attr}
    (hs : st.current_struct = some cs) (hm : st.current_member = none)
    (hnew : Member.new attrs = .ok m0) :
    stepStart st "member" attrs =
      .ok { st with current_member := some m0, member_start_depth := st.depth,
                    depth := st.depth + 1 } := by
  simp [stepStart, typeCategoryOf, dispatchTag, hs, hm, hnew]

theorem stepStart_typeTag {st : LoopState} {cs : Struct}
    (hs : st.current_struct = some cs) :
    stepStart st "type" [] =
      .ok { st with parsing_member_type := true, depth := st.depth + 1 } := by
  simp [stepStart, typeCategoryOf, dispatchTag, hs]

theorem stepStart_nameTag {st : LoopState} {cs : Struct}
    (hs : st.current_struct = some cs) :
    stepStart st "name" [] =
      .ok { st with parsing_member_name := true, depth := st.depth + 1 } := by
  simp [stepStart, typeCategoryOf, dispatchTag, hs]

theorem stepStart_commentTag {st : LoopState} {cs : Struct}
    (hs : st.current_struct = some cs) (hm : st.current_member = none) :
    stepStart st "comment" [] =
      .ok { st with parsing_struct_comment := true, depth := st.depth + 1 } := by
  simp [stepStart, typeCategoryOf, dispatchTag, hs, hm]

theorem stepStart_structOpen {st : LoopState} {attrs : List Attr} {s0 : Struct}
    (hcat : typeCategoryOf "type" attrs = TypeCategory.struct)
    (hnew : Struct.new attrs = .ok s0) :
    stepStart st "type" attrs =
      .ok { st with current_struct := some s0, struct_start_depth := st.depth,
                    parsing_member_type := true, depth := st.depth + 1 } := by
  simp [stepStart, dispatchTag, hcat, hnew]

theorem stepChars_armedType {st : LoopState} {m : Member} {s : String}
    (hm : st.current_member = some m) (ht : st.parsing_member_type = true)
    (hs : 0 < s.length) :
    stepChars st s = .ok { st with current_member := some { m with ty := s },
                                   parsing_member_type := false } := by
  simp [stepChars, hm, ht, hs]

theorem stepChars_armedName {st : LoopState} {m : Member} {s : String}
    (hm : st.current_member = some m) (ht : st.parsing_member_type = false)
    (hn : st.parsing_member_name = true) (hs : 0 < s.length) :
    stepChars st s = .ok { st with current_member := some { m with name := s },
                                   parsing_member_name := false } := by
  simp [stepChars, hm, ht, hn, hs]

theorem stepChars_structComment {st : LoopState} {cs : Struct} {s : String}
    (hm : st.current_member = none) (hs : st.current_struct = some cs)
    (hc : st.parsing_struct_comment = true) (hl : 0 < s.length) :
    stepChars st s = .ok { st with current_struct := some { cs with comment := s },
                                   parsing_struct_comment := false } := by
  simp [stepChars, hm, hs, hc, hl]

theorem stepEnd_noBranch {st : LoopState} {n : String}
    (h1 : n ≠ "member") (h2 : n ≠ "type") :
    stepEnd st n = .ok { st with depth := st.depth - 1 } := by
  simp [stepEnd, h1, h2]

theorem stepEnd_typeInner {st : LoopState}
    (hd : st.depth - 1 ≠ st.struct_start_depth) :
    stepEnd st "type" = .ok { st with depth := st.depth - 1 } := by
  simp only [stepEnd]
  simp [hd]

theorem stepEnd_memberClose {st : LoopState} {cs : Struct} {nm : Member}
    (hs : st.current_struct = some cs) (hm : st.current_member = some nm)
    (hd : st.depth - 1 = st.member_start_depth) (hv : 0 < nm.name.length) :
    stepEnd st "member" =
      .ok { st with depth := st.depth - 1,
                    current_struct := some { cs with members := cs.members ++ [nm] },
                    current_member := none } := by
  simp [stepEnd, hs, hm, hd, hv, Member.validate]

theorem stepEnd_structSeal {st : LoopState} {cs : Struct}
    (hs : st.current_struct = some cs) (hd : st.depth - 1 = st.struct_start_depth) :
    stepEnd st "type" =
      .ok { st with depth := st.depth - 1, structs := st.structs ++ [cs],
                    current_struct := none } := by
  simp [stepEnd, hs, hd]

theorem exOk_iff {α : Type} {e : Except String α} : exOk e = true ↔ ∃ a, e = .ok a := by
  cases e <;> simp [exOk]

theorem memberRun {st : LoopState} {cs : Struct} {m : MemberDesc} {es : List XmlEvent}
    (hs : st.current_struct = some cs) (hm : st.current_member = none)
    (hn : st.parsing_member_name = false)
    (hw : wfMemberDesc m = true)
    (hd : st.struct_start_depth ≠ st.depth + 1) :
    runLoop st (memberEvents m ++ es) =
      runLoop { st with
                current_struct := some { cs with members := cs.members ++ [mkMember m] },
                current_member := none, parsing_member_type := false,
                member_start_depth := st.depth } es := by
  simp only [wfMemberDesc, Bool.and_eq_true, decide_eq_true_eq, exOk_iff] at hw
  obtain ⟨⟨⟨m0, hnew⟩, hty⟩, hfn⟩ := hw
  have hd1 : st.depth + 1 ≠ st.struct_start_depth := fun h => hd h.symm
  simp [memberEvents, runLoop, stepStart, stepEnd, stepChars, dispatchTag, typeCategoryOf,
    Member.validate, mkMember, hs, hm, hnew, hty, hfn, hn, hd1, Int.add_sub_cancel]

theorem membersRun {ms : List MemberDesc} {st : LoopState} {cs : Struct} {es : List XmlEvent}
    (hs : st.current_struct = some cs) (hm : st.current_member = none)
    (hn : st.parsing_member_name = false)
    (hw : ms.all wfMemberDesc = true)
    (hd : st.struct_start_depth ≠ st.depth + 1) :
    runLoop st (membersEvents ms ++ es) =
      runLoop { st with
                current_struct := some { cs with members := cs.members ++ ms.map mkMember },
                current_member := none,
                parsing_member_type := if ms.isEmpty then st.parsing_member_type else false,
                member_start_depth := if ms.isEmpty then st.member_start_depth
                                      else st.depth } es := by
  induction ms generalizing st cs with
  | nil =>
    simp only [membersEvents, List.nil_append, List.map_nil, List.append_nil,
      List.isEmpty_nil, if_true]
    rw [← hs, ← hm]
  | cons m ms ih =>
    simp only [List.all_cons, Bool.and_eq_true] at hw
    obtain ⟨hw1, hw2⟩ := hw
    simp only [membersEvents, List.append_assoc]
    rw [memberRun hs hm hn hw1 hd]
    refine Eq.trans
      (@ih _ { cs with members := cs.members ++ [mkMember m] } rfl rfl hn hw2 hd) ?_
    simp

theorem Struct.new_members {attribs : List Attr} {s : Struct}
    (h : Struct.new attribs = .ok s) : s.members = [] := by
  unfold Struct.new at h
  cases happ : Struct.applyAttrs
      { name := none, returnedonly := false, structextends := none, comment := "" } attribs with
  | error e => simp [happ] at h
  | ok acc =>
    simp only [happ] at h
    cases hna : acc.name with
    | none => simp [hna] at h
    | some n =>
      simp only [hna, Except.ok.injEq] at h
      rw [← h]

theorem commentRun {st : LoopState} {cs : Struct} {c : String} {es : List XmlEvent}
    (hs : st.current_struct = some cs) (hm : st.current_member = none)
    (hl : 0 < c.length) :
    runLoop st (commentEvents (some c) ++ es) =
      runLoop { st with current_struct := some { cs with comment := c },
                        parsing_struct_comment := false } es := by
  simp [commentEvents, runLoop, stepStart, stepEnd, stepChars, dispatchTag, typeCategoryOf,
    hs, hm, hl, Int.add_sub_cancel]

theorem structRun {d : StructDesc} {st : LoopState} {es : List XmlEvent}
    (hm : st.current_member = none)
    (hpc : st.parsing_struct_comment = false)
    (hn : st.parsing_member_name = false)
    (hw : wfStructDesc d = true) :
    runLoop st (structEvents d ++ es) = runLoop (structAdvance st d) es := by
  simp only [wfStructDesc, Bool.and_eq_true, decide_eq_true_eq, exOk_iff] at hw
  obtain ⟨⟨⟨hcat, ⟨s0, hnew⟩⟩, hcm⟩, hms⟩ := hw
  have hmem0 : s0.members = [] := Struct.new_members hnew
  cases hct : d.commentText with
  | none =>
    simp only [structEvents, hct, commentEvents, List.nil_append, List.cons_append,
      List.append_assoc]
    rw [runLoop_start_ok (stepStart_structOpen hcat hnew)]
    refine Eq.trans (@membersRun d.members _ s0 _ rfl hm hn hms (by simp; omega)) ?_
    rw [runLoop_end_ok (stepEnd_structSeal rfl (by simp))]
    simp [structAdvance, mkStruct, hnew, hct, hmem0, hpc, Int.add_sub_cancel]
  | some c =>
    rw [hct] at hcm
    simp only [decide_eq_true_eq] at hcm
    simp only [structEvents, hct, List.cons_append, List.append_assoc]
    rw [runLoop_start_ok (stepStart_structOpen hcat hnew)]
    refine Eq.trans (@commentRun _ s0 c _ rfl hm hcm) ?_
    refine Eq.trans (@membersRun d.members _ { s0 with comment := c } _ rfl hm hn hms
      (by simp; omega)) ?_
    rw [runLoop_end_ok (stepEnd_structSeal rfl (by simp))]
    simp [structAdvance, mkStruct, hnew, hct, hmem0, hpc, Int.add_sub_cancel]

theorem docRun {ds : List StructDesc} {st : LoopState}
    (hm : st.current_member = none) (hpc : st.parsing_struct_comment = false)
    (hn : st.parsing_member_name = false)
    (hw : ds.all wfStructDesc = true) :
    ∃ t : LoopState, (∀ es, runLoop st (docEvents ds ++ es) = runLoop t es) ∧
      t.structs = st.structs ++ ds.map mkStruct := by
  induction ds generalizing st with
  | nil => exact ⟨st, fun es => by simp [docEvents], by simp⟩
  | cons d ds ih =>
    simp only [List.all_cons, Bool.and_eq_true] at hw
    obtain ⟨hw1, hw2⟩ := hw
    obtain ⟨t, ht1, ht2⟩ := @ih (structAdvance st d) rfl rfl hn hw2
    refine ⟨t, fun es => ?_, ?_⟩
    · rw [docEvents, List.append_assoc, structRun hm hpc hn hw1, ht1]
    · rw [ht2]
      simp [structAdvance]

theorem Member.applyAttrs_flags {l : List Attr} :
    ∀ {m0 m : Member}, Member.applyAttrs m0 l = .ok m →
      m.optional = (m0.optional ||
        l.any fun a => a.name == "optional" && a.value == "true") ∧
      m.noautovalidity = (m0.noautovalidity ||
        l.any fun a => a.name == "noautovalidity" && a.value == "true") ∧
      m.externsync = (m0.externsync ||
        l.any fun a => a.name == "externsync" && a.value == "true") := by
  induction l with
  | nil =>
    intro m0 m h
    simp only [Member.applyAttrs, Except.ok.injEq] at h
    subst h; simp
  | cons a l ih =>
    intro m0 m h
    rw [Member.applyAttrs] at h
    split_ifs at h with h1 h2 h3 h4 h5 h6
    · obtain ⟨o1, o2, o3⟩ := ih h
      simp [o1, o2, o3, h1]
    · obtain ⟨o1, o2, o3⟩ := ih h
      simp [o1, o2, o3, h2, Bool.or_assoc]
    · obtain ⟨o1, o2, o3⟩ := ih h
      simp [o1, o2, o3, h3]
    · obtain ⟨o1, o2, o3⟩ := ih h
      simp [o1, o2, o3, h4, Bool.or_assoc]
    · obtain ⟨o1, o2, o3⟩ := ih h
      simp [o1, o2, o3, h5]
    · obtain ⟨o1, o2, o3⟩ := ih h
      simp [o1, o2, o3, h6, Bool.or_assoc]

theorem Struct.applyAttrs_fields {l : List Attr} :
    ∀ {a0 acc : StructAcc}, Struct.applyAttrs a0 l = .ok acc →
      acc.name = lastAttrFrom "name" a0.name l ∧
      acc.returnedonly = (a0.returnedonly ||
        l.any fun a => a.name == "returnedonly" && a.value == "true") ∧
      acc.structextends = lastAttrFrom "structextends" a0.structextends l ∧
      some acc.comment = lastAttrFrom "comment" (some a0.comment) l := by
  induction l with
  | nil =>
    intro a0 acc h
    simp only [Struct.applyAttrs, Except.ok.injEq] at h
    subst h; simp [lastAttrFrom]
  | cons a l ih =>
    intro a0 acc h
    rw [Struct.applyAttrs] at h
    split_ifs at h with h1 h2 h3 h4 h5
    · obtain ⟨o1, o2, o3, o4⟩ := ih h
      simp [o1, o2, o3, o4, h1, lastAttrFrom]
    · obtain ⟨o1, o2, o3, o4⟩ := ih h
      simp [o1, o2, o3, o4, h2, lastAttrFrom]
    · obtain ⟨o1, o2, o3, o4⟩ := ih h
      simp [o1, o2, o3, o4, h3, lastAttrFrom, Bool.or_assoc]
    · obtain ⟨o1, o2, o3, o4⟩ := ih h
      simp [o1, o2, o3, o4, h4, lastAttrFrom]
    · obtain ⟨o1, o2, o3, o4⟩ := ih h
      simp [o1, o2, o3, o4, h5, lastAttrFrom]

theorem Member.applyAttrs_unknown_member {l : List Attr} :
    ∀ {m : Member}, (∃ u ∈ l, isMemberAttrName u.name = false) →
      ∃ u ∈ l, isMemberAttrName u.name = false ∧
        Member.applyAttrs m l = .error (unknownAttrMsg u) := by
  induction l with
  | nil => rintro m ⟨u, hu, _⟩; cases hu
  | cons a l ih =>
    rintro m ⟨u, hu, hbad⟩
    by_cases hA : isMemberAttrName a.name = true
    · have hul : u ∈ l := by
        rcases List.mem_cons.mp hu with h | h
        · rw [h] at hbad; rw [hbad] at hA; cases hA
        · exact h
      simp only [isMemberAttrName, Bool.or_eq_true, beq_iff_eq] at hA
      rcases hA with ((((c1 | c2) | c3) | c4) | c5) | c6 <;>
        [(rw [Member.applyAttrs, if_pos c1]);
         (rw [Member.applyAttrs, if_neg (by simp [c2]), if_pos c2]);
         (rw [Member.applyAttrs, if_neg (by simp [c3]), if_neg (by simp [c3]), if_pos c3]);
         (rw [Member.applyAttrs, if_neg (by simp [c4]), if_neg (by simp [c4]),
            if_neg (by simp [c4]), if_pos c4]);
         (rw [Member.applyAttrs, if_neg (by simp [c5]), if_neg (by simp [c5]),
            if_neg (by simp [c5]), if_neg (by simp [c5]), if_pos c5]);
         (rw [Member.applyAttrs, if_neg (by simp [c6]), if_neg (by simp [c6]),
            if_neg (by simp [c6]), if_neg (by simp [c6]), if_neg (by simp [c6]),
            if_pos c6])] <;>
      · obtain ⟨v, hv, hvb, herr⟩ := ih ⟨u, hul, hbad⟩
        exact ⟨v, List.mem_cons_of_mem a hv, hvb, herr⟩
    · rw [Bool.not_eq_true] at hA
      refine ⟨a, List.mem_cons_self a l, hA, ?_⟩
      simp only [isMemberAttrName, Bool.or_eq_false_iff, beq_eq_false_iff_ne] at hA
      obtain ⟨⟨⟨⟨⟨n1, n2⟩, n3⟩, n4⟩, n5⟩, n6⟩ := hA
      simp [Member.applyAttrs, n1, n2, n3, n4, n5, n6]



theorem Struct.applyAttrs_unknown_struct {l : List Attr} :
    ∀ {acc : StructAcc}, (∃ u ∈ l, isStructAttrName u.name = false) →
      ∃ u ∈ l, isStructAttrName u.name = false ∧
        Struct.applyAttrs acc l = .error (unknownAttrMsg u) := by
  induction l with
  | nil => rintro acc ⟨u, hu, _⟩; cases hu
  | cons a l ih =>
    rintro acc ⟨u, hu, hbad⟩
    by_cases hA : isStructAttrName a.name = true
    · have hul : u ∈ l := by
        rcases List.mem_cons.mp hu with h | h
        · rw [h] at hbad; rw [hbad] at hA; cases hA
        · exact h
      simp only [isStructAttrName, Bool.or_eq_true, beq_iff_eq] at hA
      rcases hA with (((c1 | c2) | c3) | c4) | c5 <;>
        [(rw [Struct.applyAttrs, if_pos c1]);
         (rw [Struct.applyAttrs, if_neg (by simp [c2]), if_pos c2]);
         (rw [Struct.applyAttrs, if_neg (by simp [c3]), if_neg (by simp [c3]), if_pos c3]);
         (rw [Struct.applyAttrs, if_neg (by simp [c4]), if_neg (by simp [c4]),
            if_neg (by simp [c4]), if_pos c4]);
         (rw [Struct.applyAttrs, if_neg (by simp [c5]), if_neg (by simp [c5]),
            if_neg (by simp [c5]), if_neg (by simp [c5]), if_pos c5])] <;>
      · obtain ⟨v, hv, hvb, herr⟩ := ih ⟨u, hul, hbad⟩
        exact ⟨v, List.mem_cons_of_mem a hv, hvb, herr⟩
    · rw [Bool.not_eq_true] at hA
      refine ⟨a, List.mem_cons_self a l, hA, ?_⟩
      simp only [isStructAttrName, Bool.or_eq_false_iff, beq_eq_false_iff_ne] at hA
      obtain ⟨⟨⟨⟨n1, n2⟩, n3⟩, n4⟩, n5⟩ := hA
      simp [Struct.applyAttrs, n1, n2, n3, n4, n5]

theorem scanChars_error_of_bad {cs : List Char} :
    ∀ {n i : Nat} {acc : String}, (∃ c ∈ cs, isScanChar c = false) →
      ∃ e, scanChars n i acc cs = .error e := by
  induction cs with
  | nil => rintro n i acc ⟨c, hc, _⟩; cases hc
  | cons c cs ih =>
    rintro n i acc ⟨u, hu, hbad⟩
    rw [scanChars]
    by_cases h1 : c = '['
    · rw [if_pos h1]
      refine ih ⟨u, ?_, hbad⟩
      rcases List.mem_cons.mp hu with h | h
      · rw [h, h1] at hbad; cases hbad
      · exact h
    · rw [if_neg h1]
      by_cases h2 : c = ']'
      · rw [if_pos h2]
        by_cases h3 : i = n - 1
        · rw [if_pos h3]
          refine ih ⟨u, ?_, hbad⟩
          rcases List.mem_cons.mp hu with h | h
          · rw [h, h2] at hbad; cases hbad
          · exact h
        · rw [if_neg h3]; exact ⟨_, rfl⟩
      · rw [if_neg h2]
        by_cases h4 : rustIsNumeric c = true
        · rw [if_pos h4]
          refine ih ⟨u, ?_, hbad⟩
          rcases List.mem_cons.mp hu with h | h
          · rw [h] at hbad; simp [isScanChar, h4] at hbad
          · exact h
        · rw [if_neg h4]; exact ⟨_, rfl⟩

theorem parse_stray_bracket {s : String} {m : Member}
    (h1 : rustStartsWith s "[" = true) (h2 : s ≠ "[") (h3 : s ≠ "[2]") (h4 : s ≠ "[4]") :
    parse_stray_text s m = (scanArraySize s).map (fun _ => m) := by
  obtain ⟨t, ht⟩ : ∃ t, s.data = '[' :: t := by
    have h1' := h1
    rw [rustStartsWith] at h1'
    cases hd : s.data with
    | nil => rw [hd] at h1'; simp [List.isPrefixOf] at h1'
    | cons c cs =>
      rw [hd] at h1'
      simp [List.isPrefixOf] at h1'
      exact ⟨cs, by rw [← h1']⟩
  have hrb : s ≠ "]" := by
    intro hE; rw [hE] at ht; simp at ht
  have hc : rustStartsWith s "const" = false := by
    rw [rustStartsWith, ht]; simp [List.isPrefixOf]
  have hst : rustStartsWith s "struct" = false := by
    rw [rustStartsWith, ht]; simp [List.isPrefixOf]
  have hp : rustStartsWith s "*" = false := by
    rw [rustStartsWith, ht]; simp [List.isPrefixOf]
  rw [parse_stray_text, if_neg h2, if_neg hrb, if_neg h3, if_neg h4,
    if_neg (by simp [hc]), if_neg (by simp [hst]), if_neg (by simp [hp]), if_pos h1]
  cases scanArraySize s <;> rfl

theorem stepChars_stray {t : LoopState} {m m' : Member} {s : String}
    (hm : t.current_member = some m)
    (h1 : t.parsing_member_type = false) (h2 : t.parsing_member_name = false)
    (h3 : t.parsing_member_array_size = false) (h4 : t.parsing_member_comment = false)
    (hl : 0 < s.length) (hp : parse_stray_text s m = .ok m') :
    stepChars t s = .ok { t with current_member := some m' } := by
  simp [stepChars, hm, h1, h2, h3, h4, hl, hp]

theorem appendSingleton_ne {α : Type} (l : List α) (a : α) : l ++ [a] ≠ l := by
  intro hE
  simpa using congrArg List.length hE

theorem dispatchTag_structs {t : LoopState} {n : String} {a : List Attr} {t' : LoopState}
    (h : dispatchTag t n a = .ok t') : t'.structs = t.structs := by
  simp only [dispatchTag] at h
  split_ifs at h
  all_goals try cases h
  all_goals try rfl
  all_goals split at h <;> cases h <;> rfl

theorem stepStart_structs {t : LoopState} {n : String} {a : List Attr} {t' : LoopState}
    (h : stepStart t n a = .ok t') : t'.structs = t.structs := by
  simp only [stepStart] at h
  by_cases hc : typeCategoryOf n a = TypeCategory.struct
  · rw [if_pos hc] at h
    cases hS : Struct.new a with
    | error e => simp only [hS] at h; cases h
    | ok s0 =>
      simp only [hS, Option.isSome_some, if_true] at h
      cases hD : dispatchTag
          { t with current_struct := some s0, struct_start_depth := t.depth } n a with
      | error e => simp only [hD] at h; cases h
      | ok st2 =>
        simp only [hD] at h
        cases h
        simpa using dispatchTag_structs hD
  · rw [if_neg hc] at h
    by_cases hin : t.current_struct.isSome = true
    · simp only [hin, if_true] at h
      cases hD : dispatchTag t n a with
      | error e => simp only [hD] at h; cases h
      | ok st2 =>
        simp only [hD] at h
        cases h
        simpa using dispatchTag_structs hD
    · simp only [hin, if_false] at h
      cases h
      rfl

theorem stepChars_structs {t : LoopState} {s : String} {t' : LoopState}
    (h : stepChars t s = .ok t') : t'.structs = t.structs := by
  rw [stepChars] at h
  cases hm : t.current_member with
  | some m =>
    simp only [hm] at h
    split_ifs at h
    all_goals try (cases h; rfl)
    all_goals split at h <;> cases h <;> rfl
  | none =>
    simp only [hm] at h
    cases hcs : t.current_struct with
    | none => simp only [hcs] at h; cases h; rfl
    | some cur =>
      simp only [hcs] at h
      split_ifs at h
      all_goals cases h; rfl

theorem stepEnd_structs_iff {t : LoopState} {n : String} {t' : LoopState}
    (h : stepEnd t n = .ok t') :
    (t'.structs ≠ t.structs ↔
      n = "type" ∧ t.current_struct.isSome = true ∧ t.depth - 1 = t.struct_start_depth) := by
  simp only [stepEnd] at h
  split_ifs at h with hb1 hd1 hb2 hd2
  · cases hcs : t.current_struct with
    | none => simp only [hcs] at h; cases h
    | some cs =>
      cases hcm : t.current_member with
      | none => simp only [hcs, hcm] at h; cases h
      | some nm =>
        simp only [hcs, hcm] at h
        cases hv : Member.validate nm with
        | error e => simp only [hv] at h; cases h
        | ok u =>
          simp only [hv] at h
          cases h
          have hnt : n ≠ "type" := by
            intro hE
            rw [hE] at hb1
            exact absurd hb1.1 (by decide)
          simp [hnt]
  · cases h
    have hnt : n ≠ "type" := by
      intro hE
      rw [hE] at hb1
      exact absurd hb1.1 (by decide)
    simp [hnt]
  · cases hcs : t.current_struct with
    | none => rw [hcs] at hb2; exact absurd hb2.2 (by decide)
    | some cs =>
      simp only [hcs] at h
      cases h
      simp only [appendSingleton_ne, ne_eq, not_false_eq_true, true_iff]
      exact ⟨hb2.1, by simp, hd2⟩
  · cases h
    simp only [ne_eq, not_true_eq_false, false_iff, not_and]
    intro hR1 hR2
    exact fun hR3 => hd2 hR3
  · cases h
    simp only [ne_eq, not_true_eq_false, false_iff, not_and]
    intro hR1 hR2
    exact absurd ⟨hR1, hR2⟩ hb2

theorem Struct.new_fields {attribs : List Attr} {s : Struct}
    (hnew : Struct.new attribs = .ok s) :
    lastAttrFrom "name" none attribs = some s.name ∧
    (s.returnedonly = true ↔ ∃ a ∈ attribs, a.name = "returnedonly" ∧ a.value = "true") ∧
    s.structextends = lastAttrFrom "structextends" none attribs ∧
    some s.comment = lastAttrFrom "comment" (some "") attribs := by
  unfold Struct.new at hnew
  cases happ : Struct.applyAttrs
      { name := none, returnedonly := false, structextends := none, comment := "" } attribs with
  | error e => simp [happ] at hnew
  | ok acc =>
    simp only [happ] at hnew
    cases hna : acc.name with
    | none => simp [hna] at hnew
    | some n =>
      simp only [hna, Except.ok.injEq] at hnew
      obtain ⟨f1, f2, f3, f4⟩ := Struct.applyAttrs_fields happ
      have f1' : acc.name = lastAttrFrom "name" none attribs := f1
      have f2' : acc.returnedonly =
          attribs.any (fun a => a.name == "returnedonly" && a.value == "true") := f2
      have f3' : acc.structextends = lastAttrFrom "structextends" none attribs := f3
      have f4' : some acc.comment = lastAttrFrom "comment" (some "") attribs := f4
      subst hnew
      refine ⟨by rw [← f1', hna], ?_, f3', f4'⟩
      show acc.returnedonly = true ↔ _
      rw [f2']
      simp [List.any_eq_true]

/-- C1 counterexample: on the spec's own scenario the armed type text is stored
verbatim — the members finalize with type_name "int32_t" and "char", while the
Type Normalizer (which is never invoked) would have produced "i32" and "i8". -/
theorem claim_C1_cex :
    run exampleEvents = RunResult.ok [exampleStruct] ∧
    exampleStruct.members.map Member.ty = ["int32_t", "char"] ∧
    convert_type "int32_t" = .ok "i32" ∧ convert_type "char" = .ok "i8" ∧
    ("int32_t" : String) ≠ "i32" ∧ ("char" : String) ≠ "i8" :=
  ⟨by decide, by decide, rfl, rfl, by decide, by decide⟩

/-- C1 (amended): when a member's type sub-element is armed and a Text event
arrives, the text is stored verbatim as the member's type_name without passing
through the Type Normalizer; in the spec scenario the members finalize with
type_name "int32_t" and "char". -/
theorem claim_C1_thm (t : LoopState) (m : Member) (s : String)
    (hm : t.current_member = some m) (ht : t.parsing_member_type = true)
    (hs : 0 < s.length) :
    stepChars t s = .ok { t with current_member := some { m with ty := s },
                                 parsing_member_type := false } ∧
    run exampleEvents = RunResult.ok [exampleStruct] :=
  ⟨stepChars_armedType hm ht hs, by decide⟩

/-- C1 witness: the amended claim applied at a concrete armed state. -/
theorem claim_C1_witness :
    stepChars witnessStateArmed "int32_t" =
      .ok { witnessStateArmed with
            current_member := some { witnessMember with ty := "int32_t" },
            parsing_member_type := false } :=
  (claim_C1_thm witnessStateArmed witnessMember "int32_t" rfl rfl (by decide)).1

/-- C2: a stray fragment beginning with '[' that is not exactly "[", "]", "[2]"
or "[4]" is handed to the character scanner, whose computed literal is
discarded — the member comes back unchanged on success; any character that is
neither a digit nor a bracket makes the scan abort; and only "[2]" and "[4]"
record an array size through the stray-token path. -/
theorem claim_C2_thm (s : String) (m : Member)
    (h1 : rustStartsWith s "[" = true) (h2 : s ≠ "[") (h3 : s ≠ "[2]") (h4 : s ≠ "[4]") :
    parse_stray_text s m = (scanArraySize s).map (fun _ => m) ∧
    ((∃ c ∈ s.data, isScanChar c = false) → ∃ e, parse_stray_text s m = .error e) ∧
    parse_stray_text "[2]" m = .ok { m with array_size := some "2" } ∧
    parse_stray_text "[4]" m = .ok { m with array_size := some "4" } := by
  refine ⟨parse_stray_bracket h1 h2 h3 h4, ?_, by simp [parse_stray_text],
    by simp [parse_stray_text]⟩
  intro hbad
  obtain ⟨e, he⟩ := @scanChars_error_of_bad s.data s.length 0 "" hbad
  refine ⟨e, ?_⟩
  rw [parse_stray_bracket h1 h2 h3 h4, scanArraySize, he]
  rfl

/-- C2 witness: "[3]" is scanned (to "3") and discarded, leaving the member
unchanged. -/
theorem claim_C2_witness :
    parse_stray_text "[3]" memberInit = (scanArraySize "[3]").map (fun _ => memberInit) ∧
    parse_stray_text "[3]" memberInit = .ok memberInit ∧
    scanArraySize "[3]" = .ok "3" :=
  ⟨(claim_C2_thm "[3]" memberInit (by decide) (by decide) (by decide) (by decide)).1,
   rfl, rfl⟩

/-- C3 counterexample: a struct whose first member carries the stray tokens
const, * before its type/name sub-elements finalizes with is_const = false —
the const fragment was consumed by the armed member-type flag, not the Token
Classifier (is_ptr does come out true). -/
theorem claim_C3_cex :
    run c3Events = RunResult.ok [c3Struct] ∧
    c3Struct.members.map Member.is_const = [false] ∧
    c3Struct.members.map Member.is_ptr = [true] :=
  ⟨by decide, by decide, by decide⟩

/-- C3 (amended): when no sub-element flag is armed, the stray sequence const,
* sets is_const and is_ptr on the open member; in general any fragment reaching
the Token Classifier that begins with "const" sets is_const and any beginning
with '*' sets is_ptr. -/
theorem claim_C3_thm (t : LoopState) (m : Member)
    (hm : t.current_member = some m)
    (h1 : t.parsing_member_type = false) (h2 : t.parsing_member_name = false)
    (h3 : t.parsing_member_array_size = false) (h4 : t.parsing_member_comment = false) :
    (match stepChars t "const" with
     | .ok t1 => stepChars t1 "*"
     | .error e => .error e) =
      .ok { t with current_member := some { m with is_const := true, is_ptr := true } } ∧
    (∀ (s : String) (w : Member), rustStartsWith s "const" = true →
        parse_stray_text s w = .ok { w with is_const := true }) ∧
    (∀ (s : String) (w : Member), rustStartsWith s "*" = true →
        parse_stray_text s w = .ok { w with is_ptr := true }) := by
  have hconst : ∀ (s : String) (w : Member), rustStartsWith s "const" = true →
      parse_stray_text s w = .ok { w with is_const := true } := by
    intro s w h
    obtain ⟨t0, ht0⟩ : ∃ t0, s.data = 'c' :: 'o' :: 'n' :: 's' :: 't' :: t0 := by
      rw [rustStartsWith] at h
      obtain ⟨t0, ht0⟩ := List.isPrefixOf_iff_prefix.mp h
      exact ⟨t0, by rw [← ht0]; rfl⟩
    have n1 : s ≠ "[" := fun hE => by rw [hE] at ht0; simp at ht0
    have n2 : s ≠ "]" := fun hE => by rw [hE] at ht0; simp at ht0
    have n3 : s ≠ "[2]" := fun hE => by rw [hE] at ht0; simp at ht0
    have n4 : s ≠ "[4]" := fun hE => by rw [hE] at ht0; simp at ht0
    rw [parse_stray_text, if_neg n1, if_neg n2, if_neg n3, if_neg n4, if_pos h]
  have hstar : ∀ (s : String) (w : Member), rustStartsWith s "*" = true →
      parse_stray_text s w = .ok { w with is_ptr := true } := by
    intro s w h
    obtain ⟨t0, ht0⟩ : ∃ t0, s.data = '*' :: t0 := by
      rw [rustStartsWith] at h
      obtain ⟨t0, ht0⟩ := List.isPrefixOf_iff_prefix.mp h
      exact ⟨t0, by rw [← ht0]; rfl⟩
    have n1 : s ≠ "[" := fun hE => by rw [hE] at ht0; simp at ht0
    have n2 : s ≠ "]" := fun hE => by rw [hE] at ht0; simp at ht0
    have n3 : s ≠ "[2]" := fun hE => by rw [hE] at ht0; simp at ht0
    have n4 : s ≠ "[4]" := fun hE => by rw [hE] at ht0; simp at ht0
    have nc : rustStartsWith s "const" = false := by
      rw [rustStartsWith, ht0]; simp [List.isPrefixOf]
    have nst : rustStartsWith s "struct" = false := by
      rw [rustStartsWith, ht0]; simp [List.isPrefixOf]
    rw [parse_stray_text, if_neg n1, if_neg n2, if_neg n3, if_neg n4,
      if_neg (by simp [nc]), if_neg (by simp [nst]), if_pos h]
  refine ⟨?_, hconst, hstar⟩
  have e1 : stepChars t "const" =
      .ok { t with current_member := some { m with is_const := true } } :=
    stepChars_stray hm h1 h2 h3 h4 (by decide) (hconst "const" m (by decide))
  have e2 : stepChars { t with current_member := some { m with is_const := true } } "*" =
      .ok { t with current_member := some { m with is_const := true, is_ptr := true } } :=
    stepChars_stray rfl h1 h2 h3 h4 (by decide)
      (hstar "*" { m with is_const := true } (by decide))
  rw [e1]
  exact e2

/-- C3 witness: the amended claim applied at a concrete unarmed state. -/
theorem claim_C3_witness :
    (match stepChars witnessState "const" with
     | .ok t1 => stepChars t1 "*"
     | .error e => .error e) =
      .ok { witnessState with
            current_member := some { witnessMember with is_const := true,
                                                        is_ptr := true } } :=
  (claim_C3_thm witnessState witnessMember rfl rfl rfl rfl rfl).1

/-- C4: a well-formed document of struct-category elements yields exactly one
Struct per element, in document order, with name, returnedonly, structextends
and comment matching its attributes (and nested comment text); and a step
appends a Struct to the output exactly when it is an end-element named "type"
arriving with a struct open at the recorded struct start depth. -/
theorem claim_C4_thm (ds : List StructDesc) (hw : ds.all wfStructDesc = true) :
    run (docEvents ds) = RunResult.ok (ds.map mkStruct) ∧
    (∀ (attribs : List Attr) (s : Struct), Struct.new attribs = .ok s →
       lastAttrFrom "name" none attribs = some s.name ∧
       (s.returnedonly = true ↔ ∃ a ∈ attribs, a.name = "returnedonly" ∧ a.value = "true") ∧
       s.structextends = lastAttrFrom "structextends" none attribs ∧
       some s.comment = lastAttrFrom "comment" (some "") attribs) ∧
    (∀ (t : LoopState) (n : String) (t' : LoopState), stepEnd t n = .ok t' →
       (t'.structs ≠ t.structs ↔
         n = "type" ∧ t.current_struct.isSome = true ∧ t.depth - 1 = t.struct_start_depth)) ∧
    (∀ (t : LoopState) (n : String) (a : List Attr) (t' : LoopState),
       stepStart t n a = .ok t' → t'.structs = t.structs) ∧
    (∀ (t : LoopState) (s : String) (t' : LoopState),
       stepChars t s = .ok t' → t'.structs = t.structs) := by
  refine ⟨?_, fun attribs s h => Struct.new_fields h, fun t n t' h => stepEnd_structs_iff h,
    fun t n a t' h => stepStart_structs h, fun t s t' h => stepChars_structs h⟩
  obtain ⟨t, ht1, ht2⟩ := @docRun ds initState rfl rfl rfl hw
  have h0 := ht1 []
  rw [List.append_nil] at h0
  rw [run, h0]
  have hfin : runLoop t [] = RunResult.ok t.structs := rfl
  rw [hfin, ht2]
  rfl

/-- C4 witness: the document theorem applied to a concrete two-struct input. -/
theorem claim_C4_witness :
    run (docEvents [witnessDesc, witnessDesc2]) =
      RunResult.ok [mkStruct witnessDesc, mkStruct witnessDesc2] :=
  (claim_C4_thm [witnessDesc, witnessDesc2] (by decide)).1

/-- C5: a SourceError event halts the scan immediately and reports the error,
and the structs fully collected before it are preserved in the output. -/
theorem claim_C5_thm (ds : List StructDesc) (msg : String) (rest : List XmlEvent)
    (hw : ds.all wfStructDesc = true) :
    run (docEvents ds ++ XmlEvent.sourceError msg :: rest) =
      RunResult.sourceError (ds.map mkStruct) msg ∧
    (∀ (t : LoopState) (rest2 : List XmlEvent),
      runLoop t (XmlEvent.sourceError msg :: rest2) = RunResult.sourceError t.structs msg) := by
  obtain ⟨t, ht1, ht2⟩ := @docRun ds initState rfl rfl rfl hw
  constructor
  · rw [run, ht1 (XmlEvent.sourceError msg :: rest), runLoop, ht2]
    rfl
  · intro t rest2
    rw [runLoop]

/-- C5 witness: an error after two collected structs yields exactly those two
structs plus the reported error. -/
theorem claim_C5_witness :
    run (docEvents [witnessDesc, witnessDesc2] ++ XmlEvent.sourceError "boom" :: []) =
      RunResult.sourceError [mkStruct witnessDesc, mkStruct witnessDesc2] "boom" :=
  (claim_C5_thm [witnessDesc, witnessDesc2] "boom" [] (by decide)).1

/-- C6: an attribute name outside the recognized set makes Member::new or
Struct::new abort with a message naming the offending attribute and value. -/
theorem claim_C6_thm (mattrs sattrs : List Attr) (a b : Attr)
    (ham : a ∈ mattrs) (hau : isMemberAttrName a.name = false)
    (hbs : b ∈ sattrs) (hbu : isStructAttrName b.name = false) :
    (∃ u ∈ mattrs, isMemberAttrName u.name = false ∧
       Member.new mattrs = .error (unknownAttrMsg u)) ∧
    (∃ u ∈ sattrs, isStructAttrName u.name = false ∧
       Struct.new sattrs = .error (unknownAttrMsg u)) := by
  constructor
  · exact Member.applyAttrs_unknown_member ⟨a, ham, hau⟩
  · obtain ⟨u, hu, hub, herr⟩ := @Struct.applyAttrs_unknown_struct sattrs
      { name := none, returnedonly := false, structextends := none, comment := "" }
      ⟨b, hbs, hbu⟩
    exact ⟨u, hu, hub, by rw [Struct.new, herr]⟩

/-- C6 witness: concrete unknown attributes on a member and on a struct. -/
theorem claim_C6_witness :
    (∃ u ∈ [(⟨"unknownAttr", "x"⟩ : Attr)], isMemberAttrName u.name = false ∧
       Member.new [⟨"unknownAttr", "x"⟩] = .error (unknownAttrMsg u)) ∧
    (∃ u ∈ [(⟨"bogus", "y"⟩ : Attr)], isStructAttrName u.name = false ∧
       Struct.new [⟨"bogus", "y"⟩] = .error (unknownAttrMsg u)) :=
  claim_C6_thm [⟨"unknownAttr", "x"⟩] [⟨"bogus", "y"⟩] ⟨"unknownAttr", "x"⟩ ⟨"bogus", "y"⟩
    (by decide) (by decide) (by decide) (by decide)

/-- C7: closing a member at its recorded start depth aborts when the member
name is still empty, and appends the member to the enclosing struct when the
name is non-empty. -/
theorem claim_C7_thm (t : LoopState) (cs : Struct) (m : Member)
    (hs : t.current_struct = some cs) (hm : t.current_member = some m)
    (hd : t.depth - 1 = t.member_start_depth) :
    (m.name.length = 0 →
      stepEnd t "member" = .error "assertion failed: self.name.len() > 0") ∧
    (0 < m.name.length → stepEnd t "member" =
      .ok { t with depth := t.depth - 1,
                   current_struct := some { cs with members := cs.members ++ [m] },
                   current_member := none }) := by
  constructor
  · intro hname
    simp [stepEnd, hs, hm, hd, Member.validate, hname]
  · intro hname
    exact stepEnd_memberClose hs hm hd hname

/-- C7 witness: both outcomes at concrete states. -/
theorem claim_C7_witness :
    stepEnd witnessState "member" =
      .ok { witnessState with
            depth := witnessState.depth - 1,
            current_struct := some { witnessStruct with
                                     members := witnessStruct.members ++ [witnessMember] },
            current_member := none } ∧
    stepEnd witnessStateNoName "member" =
      .error "assertion failed: self.name.len() > 0" :=
  ⟨(claim_C7_thm witnessState witnessStruct witnessMember rfl rfl (by decide)).2 (by decide),
   (claim_C7_thm witnessStateNoName witnessStruct memberInit rfl rfl (by decide)).1 (by decide)⟩

/-- C8: on a successfully constructed member, optional (and likewise
noautovalidity, externsync) is true exactly when some attribute of that name
has the literal value "true" — an exact string match. -/
theorem claim_C8_thm (attribs : List Attr) (m : Member)
    (h : Member.new attribs = .ok m) :
    (m.optional = true ↔ ∃ a ∈ attribs, a.name = "optional" ∧ a.value = "true") ∧
    (m.noautovalidity = true ↔
      ∃ a ∈ attribs, a.name = "noautovalidity" ∧ a.value = "true") ∧
    (m.externsync = true ↔ ∃ a ∈ attribs, a.name = "externsync" ∧ a.value = "true") := by
  obtain ⟨o1, o2, o3⟩ := Member.applyAttrs_flags h
  refine ⟨?_, ?_, ?_⟩
  · rw [o1]; simp [memberInit, List.any_eq_true]
  · rw [o2]; simp [memberInit, List.any_eq_true]
  · rw [o3]; simp [memberInit, List.any_eq_true]

/-- C8 witness: the flag theorem applied at a concrete attribute list. -/
theorem claim_C8_witness :
    ({ memberInit with optional := true } : Member).optional = true ↔
      ∃ a ∈ [(⟨"optional", "true"⟩ : Attr)], a.name = "optional" ∧ a.value = "true" :=
  (claim_C8_thm [⟨"optional", "true"⟩] { memberInit with optional := true } (by rfl)).1

/-- C9: a struct-category start-element (tag "type") arms the member-type flag
as it opens the Struct, so the first non-empty text while a member is open is
consumed into ty rather than routed to the Token Classifier; text with no
member open never clears the flag. -/
theorem claim_C9_thm (t : LoopState) (attrs : List Attr) (s0 : Struct)
    (hcat : typeCategoryOf "type" attrs = TypeCategory.struct)
    (hnew : Struct.new attrs = .ok s0) :
    stepStart t "type" attrs =
      .ok { t with current_struct := some s0, struct_start_depth := t.depth,
                   parsing_member_type := true, depth := t.depth + 1 } ∧
    (∀ (t1 : LoopState) (m : Member) (s : String), t1.current_member = some m →
       t1.parsing_member_type = true → 0 < s.length →
       stepChars t1 s = .ok { t1 with current_member := some { m with ty := s },
                                      parsing_member_type := false }) ∧
    (∀ (t1 : LoopState) (s : String), t1.current_member = none →
       ∃ t2, stepChars t1 s = .ok t2 ∧
         t2.parsing_member_type = t1.parsing_member_type) := by
  refine ⟨stepStart_structOpen hcat hnew, fun t1 m s hm ht hl => stepChars_armedType hm ht hl, ?_⟩
  intro t1 s hm
  cases hcs : t1.current_struct with
  | none => exact ⟨t1, by simp [stepChars, hm, hcs], rfl⟩
  | some cur =>
    by_cases hc : t1.parsing_struct_comment = true ∧ 0 < s.length
    · refine ⟨{ t1 with current_struct := some { cur with comment := s },
                        parsing_struct_comment := false }, ?_, rfl⟩
      simp only [stepChars, hm, hcs]
      rw [if_pos hc]
    · refine ⟨t1, ?_, rfl⟩
      simp only [stepChars, hm, hcs]
      rw [if_neg hc]

/-- C9 witness: opening a concrete struct element leaves the member-type flag
armed. -/
theorem claim_C9_witness :
    stepStart initState "type" [⟨"category", "struct"⟩, ⟨"name", "ExampleInfo"⟩] =
      .ok { initState with
            current_struct := some { name := "ExampleInfo", returnedonly := false,
                                     structextends := none, comment := "", members := [] },
            struct_start_depth := 0, parsing_member_type := true, depth := 1 } :=
  (claim_C9_thm initState [⟨"category", "struct"⟩, ⟨"name", "ExampleInfo"⟩]
      { name := "ExampleInfo", returnedonly := false, structextends := none,
        comment := "", members := [] } (by decide) (by rfl)).1

/-- C10: a Characters event carrying the empty string leaves the entire loop
state unchanged, whatever is open or armed. -/
theorem claim_C10_thm (t : LoopState) : stepChars t "" = .ok t := by
  rw [stepChars]
  cases t.current_member with
  | some m => simp
  | none =>
    cases t.current_struct with
    | some cur => simp
    | none => rfl

end Voodoo
